import Mathlib

/-!
Verification of the ornament-rs position-mapping and modification-compatibility
engine (`crates/ornament-core`): the Sprinzl position table and alignment
mapper (`modification/sprinzl.rs`), the modification types
(`modification/types.rs`), the modification database and its two construction
paths (`modification/database.rs`, `modification/modomics.rs`), and the
compatibility analyzer (`analysis/compatibility.rs`).

Rust `FxHashMap`/`HashMap` values are embedded as association lists whose keys
are pairwise distinct (`insertAssoc` mirrors `HashMap::insert`,
`assocLookup` mirrors `HashMap::get`, `assocPush` mirrors
`entry(..).or_default().push(..)`); `f64` scores are embedded as `ℚ`.
-/

set_option maxRecDepth 100000

namespace Ornament

/-- Association-list lookup, embedding `HashMap::get`. -/
def assocLookup {α β : Type} [DecidableEq α] (k : α) : List (α × β) → Option β
  | [] => none
  | (k', v) :: rest => if k = k' then some v else assocLookup k rest

/-- Association-list insert, embedding `HashMap::insert` (replaces the
binding for `k` if present). -/
def insertAssoc {α β : Type} [DecidableEq α] (l : List (α × β)) (k : α) (v : β) :
    List (α × β) :=
  (l.filter (fun p => p.1 ≠ k)) ++ [(k, v)]

/-- Embedding of `map.entry(k).or_default().push(v)` on a map of lists. -/
def assocPush {α β : Type} [DecidableEq α] (l : List (α × List β)) (k : α) (v : β) :
    List (α × List β) :=
  if (assocLookup k l).isSome then
    l.map (fun p => if p.1 = k then (p.1, p.2 ++ [v]) else p)
  else
    l ++ [(k, [v])]

theorem mem_insertAssoc {α β : Type} [DecidableEq α] {l : List (α × β)}
    {k : α} {v : β} {p : α × β} (h : p ∈ insertAssoc l k v) :
    p ∈ l ∨ p = (k, v) := by
  unfold insertAssoc at h
  rcases List.mem_append.mp h with h1 | h1
  · exact Or.inl (List.mem_of_mem_filter h1)
  · exact Or.inr (by simpa using h1)

/-! ## Core value types (`modification/types.rs`) -/

/-- RNA nucleotide bases. -/
inductive RnaBase : Type
  | A
  | C
  | G
  | U
deriving DecidableEq, Repr

/-- `RnaBase::from_dna_char`: case-insensitive, `T` maps to `U`, anything
else yields `none`. -/
def RnaBase.from_dna_char (c : Char) : Option RnaBase :=
  match c.toUpper with
  | 'A' => some .A
  | 'C' => some .C
  | 'G' => some .G
  | 'T' => some .U
  | 'U' => some .U
  | _ => none

/-- Modification code representation (`ModCode`). -/
inductive ModCode : Type
  | SingleChar (c : Char)
  | ChEBI (id : Nat)
  | Unicode (c : Char)
  | ShortName (s : String)
deriving DecidableEq, Repr

/-- An RNA modification (`Modification`). -/
structure Modification : Type where
  name : String
  short_name : String
  code : ModCode
  alt_codes : List ModCode
  parent_base : RnaBase
  genomic_expectation : RnaBase
  incompatible_bases : List RnaBase
  chebi_id : Option Nat
  modomics_unicode : Option Char
deriving DecidableEq, Repr

/-- `Modification::is_compatible`: the observed base is not in the
incompatible set. -/
def Modification.is_compatible (m : Modification) (observed : RnaBase) : Bool :=
  !(m.incompatible_bases.contains observed)

/-- Conservation level of a modification across organisms. -/
inductive ConservationLevel : Type
  | Universal
  | DomainSpecific
  | IsotypeSpecific
  | Rare
deriving DecidableEq, Repr

/-- Functional role of a modification. -/
inductive FunctionalRole : Type
  | AnticodonFunction
  | StructuralStability
  | AminoacylationIdentity
  | Unknown
deriving DecidableEq, Repr

/-- `SprinzlPosition` is a newtype over `String` with equality and hashing by
exact label; embedded as `String`. -/
abbrev SprinzlPosition := String

/-- `SprinzlPosition::from_num`. -/
def SprinzlPosition.from_num (n : Nat) : SprinzlPosition := toString n

/-- Expected modification at a specific tRNA position
(`PositionModExpectation`). -/
structure PositionModExpectation : Type where
  position : SprinzlPosition
  modifications : List Modification
  conservation : ConservationLevel
  functional_role : FunctionalRole
  isotypes : List String
deriving DecidableEq, Repr

/-- Strand orientation (`analysis/mod.rs`). -/
inductive Strand : Type
  | Plus
  | Minus
deriving DecidableEq, Repr

/-- A detected tRNA occurrence (`TRNAHit`); the `f64` score is embedded
as `ℚ`. -/
structure TRNAHit : Type where
  id : String
  seq_name : String
  start : Nat
  endPos : Nat
  strand : Strand
  score : ℚ
  isotype : Option String
  anticodon : Option String
  sequence : String
  «structure» : String
deriving DecidableEq, Repr

/-- Severity of a modification incompatibility. -/
inductive Severity : Type
  | Critical
  | Major
  | Minor
deriving DecidableEq, Repr

/-- A modification incompatibility found at a position
(`ModificationIncompatibility`). -/
structure ModificationIncompatibility : Type where
  position : SprinzlPosition
  observed_base : RnaBase
  expected_mod_name : String
  severity : Severity
deriving DecidableEq, Repr

/-- Result of compatibility analysis for one hit (`ModCompatibilityResult`);
the alignment `HashMap` is embedded as its (distinct-key) entry list and the
`f64` score as `ℚ`. -/
structure ModCompatibilityResult : Type where
  hit : TRNAHit
  sprinzl_alignment : List (SprinzlPosition × Nat)
  incompatibilities : List ModificationIncompatibility
  is_odd : Bool
  compatibility_score : ℚ

/-! ## Sprinzl mapper (`modification/sprinzl.rs`) -/

/-- The hard-coded standard position list from `SprinzlMapper::new_standard`,
in source order. -/
def sprinzlPositions : List String :=
  ["1", "2", "3", "4", "5", "6", "7",
   "8", "9", "10", "11", "12", "13", "14", "15", "16",
   "17", "17a", "18", "19", "20", "20a", "20b",
   "21", "22", "23", "24", "25",
   "26", "27", "28", "29", "30", "31", "32", "33", "34", "35", "36", "37", "38",
   "39", "40", "41", "42", "43", "44",
   "45", "e11", "e12", "e13", "e14", "e15", "e16", "e17", "e1", "e2", "e3", "e4", "e5",
   "e21", "e22", "e23", "e24", "e25", "e26", "e27", "46", "47",
   "48", "49", "50", "51", "52", "53", "54", "55", "56", "57", "58", "59", "60", "61",
   "62", "63", "64", "65",
   "66", "67", "68", "69", "70", "71", "72",
   "73", "74", "75", "76"]

/-- The `cm_to_sprinzl` map: built by inserting `(idx, positions[idx])` for
each index in order; since the indices are distinct this is exactly the
enumerated list. -/
def cmToSprinzl : List (Nat × SprinzlPosition) := sprinzlPositions.enum

/-- The `sprinzl_to_cm` map: built by inserting `(positions[idx], idx)`; the
labels are pairwise distinct (`sprinzlPositions_nodup`), so this is exactly
the flipped enumerated list. -/
def sprinzlToCm : List (SprinzlPosition × Nat) :=
  sprinzlPositions.enum.map (fun p => (p.2, p.1))

/-- `SprinzlMapper::get_sprinzl`. -/
def get_sprinzl (cm_idx : Nat) : Option SprinzlPosition :=
  assocLookup cm_idx cmToSprinzl

/-- `SprinzlMapper::get_cm_index`. -/
def get_cm_index (sprinzl : SprinzlPosition) : Option Nat :=
  assocLookup sprinzl sprinzlToCm

/-- Whether a character is an alignment gap (`'-'` or `'.'`). -/
def isGap (c : Char) : Bool := c = '-' || c = '.'

/-- The loop of `SprinzlMapper::map_alignment`: walk the alignment characters
with a running column index `cmIdx` and ungapped sequence index `seqPos`;
residues at columns with a canonical label are recorded.  The inserted keys
are pairwise distinct (`map_alignment_keys_nodup`), so the `HashMap` content
is exactly this entry list. -/
def mapAlignmentGo (cmIdx seqPos : Nat) : List Char → List (SprinzlPosition × Nat)
  | [] => []
  | c :: rest =>
    if isGap c then
      mapAlignmentGo (cmIdx + 1) seqPos rest
    else
      match get_sprinzl cmIdx with
      | some s => (s, seqPos) :: mapAlignmentGo (cmIdx + 1) (seqPos + 1) rest
      | none => mapAlignmentGo (cmIdx + 1) (seqPos + 1) rest

/-- `SprinzlMapper::map_alignment`. -/
def map_alignment (alignment : String) : List (SprinzlPosition × Nat) :=
  mapAlignmentGo 0 0 alignment.toList

/-- `SprinzlMapper::is_critical_position`. -/
def is_critical_position (pos : SprinzlPosition) : Bool :=
  ["34", "35", "36", "37"].contains pos ||
  ["16", "17", "20", "20a", "20b"].contains pos ||
  ["54", "55", "58"].contains pos

theorem sprinzlPositions_nodup : sprinzlPositions.Nodup := by decide

theorem sprinzlPositions_length : sprinzlPositions.length = 98 := by decide

/-! ## Modification database (`modification/database.rs`) -/

/-- The modification database (`ModificationDatabase`); its three
`FxHashMap`s are embedded as distinct-key association lists. -/
structure ModificationDatabase : Type where
  modifications : List (String × Modification)
  position_expectations : List (String × List PositionModExpectation)
  aliases : List (String × String)

/-- `ModificationDatabase::get_modification`: direct lookup first, then one
alias indirection. -/
def ModificationDatabase.get_modification (db : ModificationDatabase)
    (short_name : String) : Option Modification :=
  match assocLookup short_name db.modifications with
  | some m => some m
  | none =>
    match assocLookup short_name db.aliases with
    | some target => assocLookup target db.modifications
    | none => none

/-- `ModificationDatabase::get_expectations`. -/
def ModificationDatabase.get_expectations (db : ModificationDatabase)
    (position : SprinzlPosition) : List PositionModExpectation :=
  (assocLookup position db.position_expectations).getD []

/-- `ModificationDatabase::get_expectations_for_isotype`. -/
def ModificationDatabase.get_expectations_for_isotype (db : ModificationDatabase)
    (position : SprinzlPosition) (isotype : String) : List PositionModExpectation :=
  (db.get_expectations position).filter
    (fun exp => exp.isotypes.isEmpty || exp.isotypes.contains isotype)

/-- `ModificationDatabase::add_modification`. -/
def ModificationDatabase.add_modification (db : ModificationDatabase)
    (m : Modification) : ModificationDatabase :=
  { db with modifications := insertAssoc db.modifications m.short_name m }

/-- `ModificationDatabase::add_position_expectation`. -/
def ModificationDatabase.add_position_expectation (db : ModificationDatabase)
    (e : PositionModExpectation) : ModificationDatabase :=
  { db with position_expectations := assocPush db.position_expectations e.position e }

/-- `ModificationDatabase::setup_aliases`: the fixed alias table. -/
def ModificationDatabase.setup_aliases (db : ModificationDatabase) : ModificationDatabase :=
  { db with aliases :=
      insertAssoc (insertAssoc (insertAssoc (insertAssoc db.aliases
        "Psi" "Y") "psi" "Y") "rT" "m5U") "T" "m5U" }

/-- `ModificationDatabase::get_mod_cloned`: same lookup as
`get_modification`, returning the modification by value. -/
def ModificationDatabase.get_mod_cloned (db : ModificationDatabase)
    (name : String) : Option Modification :=
  match assocLookup name db.modifications with
  | some m => some m
  | none =>
    match assocLookup name db.aliases with
    | some target => assocLookup target db.modifications
    | none => none

/-- The twelve hard-coded modifications of
`ModificationDatabase::load_default_modifications`, in insertion order. -/
def defaultModifications : List Modification :=
  [ { name := "pseudouridine", short_name := "Psi",
      code := .Unicode 'Ψ', alt_codes := [.SingleChar 'Y'],
      parent_base := .U, genomic_expectation := .U,
      incompatible_bases := [.A, .G, .C],
      chebi_id := some 17802, modomics_unicode := some 'Ψ' },
    { name := "dihydrouridine", short_name := "D",
      code := .SingleChar 'D', alt_codes := [],
      parent_base := .U, genomic_expectation := .U,
      incompatible_bases := [.A, .G, .C],
      chebi_id := some 15802, modomics_unicode := some 'D' },
    { name := "5-methyluridine", short_name := "m5U",
      code := .ShortName "m5U", alt_codes := [.SingleChar 'T'],
      parent_base := .U, genomic_expectation := .U,
      incompatible_bases := [.A, .G, .C],
      chebi_id := some 16695, modomics_unicode := some 'T' },
    { name := "1-methyladenosine", short_name := "m1A",
      code := .ShortName "m1A", alt_codes := [],
      parent_base := .A, genomic_expectation := .A,
      incompatible_bases := [.G, .C, .U],
      chebi_id := some 21837, modomics_unicode := some '"' },
    { name := "1-methylguanosine", short_name := "m1G",
      code := .ShortName "m1G", alt_codes := [],
      parent_base := .G, genomic_expectation := .G,
      incompatible_bases := [.A, .C, .U],
      chebi_id := some 21836, modomics_unicode := some 'K' },
    { name := "N6-threonylcarbamoyladenosine", short_name := "t6A",
      code := .ShortName "t6A", alt_codes := [],
      parent_base := .A, genomic_expectation := .A,
      incompatible_bases := [.G, .C, .U],
      chebi_id := some 20817, modomics_unicode := some '6' },
    { name := "N6-isopentenyladenosine", short_name := "i6A",
      code := .ShortName "i6A", alt_codes := [],
      parent_base := .A, genomic_expectation := .A,
      incompatible_bases := [.G, .C, .U],
      chebi_id := some 17588, modomics_unicode := some '+' },
    { name := "inosine", short_name := "I",
      code := .SingleChar 'I', alt_codes := [],
      parent_base := .A, genomic_expectation := .A,
      incompatible_bases := [.G, .C, .U],
      chebi_id := some 17596, modomics_unicode := some 'I' },
    { name := "queuosine", short_name := "Q",
      code := .SingleChar 'Q', alt_codes := [],
      parent_base := .G, genomic_expectation := .G,
      incompatible_bases := [.A, .C, .U],
      chebi_id := some 17399, modomics_unicode := some 'Q' },
    { name := "2'-O-methylcytidine", short_name := "Cm",
      code := .ShortName "Cm", alt_codes := [],
      parent_base := .C, genomic_expectation := .C,
      incompatible_bases := [.A, .G, .U],
      chebi_id := some 19228, modomics_unicode := some 'B' },
    { name := "5-methylcytidine", short_name := "m5C",
      code := .ShortName "m5C", alt_codes := [],
      parent_base := .C, genomic_expectation := .C,
      incompatible_bases := [.A, .G, .U],
      chebi_id := some 27480, modomics_unicode := some '?' },
    { name := "7-methylguanosine", short_name := "m7G",
      code := .ShortName "m7G", alt_codes := [],
      parent_base := .G, genomic_expectation := .G,
      incompatible_bases := [.A, .C, .U],
      chebi_id := some 2274, modomics_unicode := some '7' } ]

/-- `ModificationDatabase::load_default_modifications`. -/
def ModificationDatabase.load_default_modifications
    (db : ModificationDatabase) : ModificationDatabase :=
  defaultModifications.foldl (fun d m => d.add_modification m) db

/-- One conditional block of `load_eukaryotic_expectations`: in the source,
`if let Some(x) = self.get_mod_cloned(name) { ...add expectation(s)... }`;
when the looked-up modification is absent the block adds nothing. -/
def addExpectationsIfSome (db : ModificationDatabase) (m : Option Modification)
    (f : Modification → List PositionModExpectation) : ModificationDatabase :=
  match m with
  | some x => (f x).foldl (fun d e => d.add_position_expectation e) db
  | none => db

/-- `ModificationDatabase::load_eukaryotic_expectations`: each block first
resolves a modification by name (via aliases) and, only when it is present,
adds the corresponding position expectation(s). -/
def ModificationDatabase.load_eukaryotic_expectations
    (db : ModificationDatabase) : ModificationDatabase :=
  let db := addExpectationsIfSome db (db.get_mod_cloned "D") (fun d =>
    [(16 : Nat), 17, 20].map (fun pos =>
      { position := SprinzlPosition.from_num pos, modifications := [d],
        conservation := .Universal, functional_role := .StructuralStability,
        isotypes := [] }))
  let db := addExpectationsIfSome db (db.get_mod_cloned "Cm") (fun cm =>
    [{ position := SprinzlPosition.from_num 32, modifications := [cm],
       conservation := .IsotypeSpecific, functional_role := .AnticodonFunction,
       isotypes := ["Phe", "Trp"] }])
  let db := addExpectationsIfSome db (db.get_mod_cloned "I") (fun i =>
    [{ position := SprinzlPosition.from_num 34, modifications := [i],
       conservation := .IsotypeSpecific, functional_role := .AnticodonFunction,
       isotypes := ["Ala", "Arg", "Ile", "Leu", "Pro", "Ser", "Thr", "Val"] }])
  let db := addExpectationsIfSome db (db.get_mod_cloned "Q") (fun q =>
    [{ position := SprinzlPosition.from_num 34, modifications := [q],
       conservation := .IsotypeSpecific, functional_role := .AnticodonFunction,
       isotypes := ["Asn", "Asp", "His", "Tyr"] }])
  let db := addExpectationsIfSome db (db.get_mod_cloned "t6A") (fun t6a =>
    [{ position := SprinzlPosition.from_num 37, modifications := [t6a],
       conservation := .DomainSpecific, functional_role := .AnticodonFunction,
       isotypes := ["Ile", "Lys", "Asn", "Ser", "Thr"] }])
  let db := addExpectationsIfSome db (db.get_mod_cloned "i6A") (fun i6a =>
    [{ position := SprinzlPosition.from_num 37, modifications := [i6a],
       conservation := .IsotypeSpecific, functional_role := .AnticodonFunction,
       isotypes := ["Cys", "Ser", "Trp"] }])
  let db := addExpectationsIfSome db (db.get_mod_cloned "m1G") (fun m1g =>
    [{ position := SprinzlPosition.from_num 37, modifications := [m1g],
       conservation := .IsotypeSpecific, functional_role := .AnticodonFunction,
       isotypes := ["Ala", "Arg", "Leu", "Pro"] }])
  let db := addExpectationsIfSome db (db.get_mod_cloned "m7G") (fun m7g =>
    [{ position := SprinzlPosition.from_num 46, modifications := [m7g],
       conservation := .Universal, functional_role := .StructuralStability,
       isotypes := [] }])
  let db := addExpectationsIfSome db (db.get_mod_cloned "m5C") (fun m5c =>
    [{ position := SprinzlPosition.from_num 48, modifications := [m5c],
       conservation := .DomainSpecific, functional_role := .StructuralStability,
       isotypes := [] }])
  let db := addExpectationsIfSome db (db.get_mod_cloned "m5U") (fun m5u =>
    [{ position := SprinzlPosition.from_num 54, modifications := [m5u],
       conservation := .Universal, functional_role := .StructuralStability,
       isotypes := [] }])
  let db := addExpectationsIfSome db
      ((db.get_mod_cloned "Psi").orElse (fun _ => db.get_mod_cloned "Y")) (fun psi =>
    [{ position := SprinzlPosition.from_num 55, modifications := [psi],
       conservation := .Universal, functional_role := .StructuralStability,
       isotypes := [] }])
  let db := addExpectationsIfSome db (db.get_mod_cloned "m1A") (fun m1a =>
    [{ position := SprinzlPosition.from_num 58, modifications := [m1a],
       conservation := .Universal, functional_role := .StructuralStability,
       isotypes := [] }])
  db

/-- The empty database value both construction paths start from. -/
def emptyModificationDatabase : ModificationDatabase :=
  { modifications := [], position_expectations := [], aliases := [] }

/-- `ModificationDatabase::eukaryotic`: the built-in eukaryotic database. -/
def eukaryotic : ModificationDatabase :=
  (emptyModificationDatabase.load_default_modifications).setup_aliases
    |>.load_eukaryotic_expectations

/-! ## MODOMICS import (`modification/modomics.rs`) -/

/-- A raw MODOMICS catalog entry (`ModomicsEntry`); the `f64` average mass is
embedded as `ℚ`. -/
structure ModomicsEntry : Type where
  id : Nat
  name : String
  short_name : String
  new_abbrev : Option String
  reference_moiety : List String
  formula : Option String
  mass_avg : Option ℚ
  smile : Option String
deriving DecidableEq, Repr

/-- The parent-base determination of `convert_entry`: the first reference
moiety, when it is one of the four canonical base letters. -/
def parentBaseOf (entry : ModomicsEntry) : Option RnaBase :=
  match entry.reference_moiety.head? with
  | some s =>
    if s = "A" then some .A
    else if s = "C" then some .C
    else if s = "G" then some .G
    else if s = "U" then some .U
    else none
  | none => none

/-- `convert_entry`: turn a MODOMICS entry into a `Modification`; entries
whose first reference moiety is not one of `A`, `C`, `G`, `U` (or whose
moiety list is empty) are dropped. -/
def convert_entry (entry : ModomicsEntry) : Option Modification :=
  match parentBaseOf entry with
  | none => none
  | some parent_base =>
    let incompatible_bases :=
      [RnaBase.A, RnaBase.C, RnaBase.G, RnaBase.U].filter (fun b => b ≠ parent_base)
    let modomics_unicode := entry.new_abbrev.bind (fun s => s.toList.head?)
    let code :=
      match modomics_unicode with
      | some u => ModCode.Unicode u
      | none =>
        if entry.short_name.length = 1 then
          ModCode.SingleChar (entry.short_name.toList.headD ' ')
        else
          ModCode.ShortName entry.short_name
    let alt_codes :=
      if entry.short_name.length = 1 then
        match entry.short_name.toList.head? with
        | some c =>
          match code with
          | ModCode.SingleChar _ => []
          | _ => [ModCode.SingleChar c]
        | none => []
      else []
    some { name := entry.name, short_name := entry.short_name, code, alt_codes,
           parent_base, genomic_expectation := parent_base, incompatible_bases,
           chebi_id := none, modomics_unicode }

/-- Errors from MODOMICS parsing (`ModomicsError`). -/
inductive ModomicsError : Type
  | IoError (msg : String)
  | ParseError (msg : String)
deriving DecidableEq, Repr

/-- The entry-conversion loop of `parse_modomics_json`: every successfully
converted entry is inserted under its short name (the JSON map's own keys are
ignored; map iteration order is embedded as list order). -/
def parse_modomics_entries (entries : List ModomicsEntry) :
    List (String × Modification) :=
  entries.foldl (fun acc e =>
    match convert_entry e with
    | some m => insertAssoc acc m.short_name m
    | none => acc) []

/-- `parse_modomics_json`; the external `serde_json` decoder is an explicit
collaborator parameter yielding either a schema error or the decoded
entries. -/
def parse_modomics_json (decode : String → Except String (List ModomicsEntry))
    (json : String) : Except ModomicsError (List (String × Modification)) :=
  match decode json with
  | .error e => .error (.ParseError e)
  | .ok entries => .ok (parse_modomics_entries entries)

/-- `parse_modomics_file`; the external filesystem read is an explicit
collaborator parameter. -/
def parse_modomics_file (readFile : String → Except String String)
    (decode : String → Except String (List ModomicsEntry)) (path : String) :
    Except ModomicsError (List (String × Modification)) :=
  match readFile path with
  | .error e => .error (.IoError e)
  | .ok content => parse_modomics_json decode content

/-- The shared tail of both MODOMICS construction paths: wrap the parsed
modification map, then `setup_aliases` and `load_eukaryotic_expectations`. -/
def dbFromModomicsMods (mods : List (String × Modification)) : ModificationDatabase :=
  ({ modifications := mods, position_expectations := [], aliases := [] }
      : ModificationDatabase).setup_aliases.load_eukaryotic_expectations

/-- `ModificationDatabase::from_modomics_json`. -/
def from_modomics_json (decode : String → Except String (List ModomicsEntry))
    (json : String) : Except ModomicsError ModificationDatabase :=
  (parse_modomics_json decode json).map dbFromModomicsMods

/-- `ModificationDatabase::from_modomics_file`. -/
def from_modomics_file (readFile : String → Except String String)
    (decode : String → Except String (List ModomicsEntry)) (path : String) :
    Except ModomicsError ModificationDatabase :=
  (parse_modomics_file readFile decode path).map dbFromModomicsMods

/-! ## Compatibility analyzer (`analysis/compatibility.rs`) -/

/-- The severity derivation from `analyze_compatibility`'s inner loop. -/
def severityFromConservation : ConservationLevel → Severity
  | .Universal => .Critical
  | .DomainSpecific => .Major
  | .IsotypeSpecific => .Major
  | .Rare => .Minor

/-- Inner loop over one expectation's modification alternatives: stop at the
first compatible alternative; every alternative examined before that (or all
of them when none is compatible) is recorded as an incompatibility. -/
def checkMods (pos : SprinzlPosition) (observed : RnaBase)
    (cons : ConservationLevel) :
    List Modification → Bool × List ModificationIncompatibility
  | [] => (false, [])
  | m :: rest =>
    if m.is_compatible observed then (true, [])
    else
      let r := checkMods pos observed cons rest
      (r.1, { position := pos, observed_base := observed,
              expected_mod_name := m.short_name,
              severity := severityFromConservation cons } :: r.2)

/-- Outer loop over a position's expectations: stop once some expectation
yields a compatible alternative, accumulating the incompatibilities recorded
along the way. -/
def checkExpectations (pos : SprinzlPosition) (observed : RnaBase) :
    List PositionModExpectation → Bool × List ModificationIncompatibility
  | [] => (false, [])
  | e :: rest =>
    let r := checkMods pos observed e.conservation e.modifications
    if r.1 then (true, r.2)
    else
      let r' := checkExpectations pos observed rest
      (r'.1, r.2 ++ r'.2)

/-- The expectation fetch of `analyze_compatibility` step 4: isotype-filtered
when the hit carries an isotype, unfiltered otherwise. -/
def expectationsAt (db : ModificationDatabase) (isotype : Option String)
    (pos : SprinzlPosition) : List PositionModExpectation :=
  match isotype with
  | some iso => db.get_expectations_for_isotype pos iso
  | none => db.get_expectations pos

/-- The per-position loop of `analyze_compatibility`, over the alignment
entries (`HashMap` iteration embedded as list order): returns
`(positions_checked, positions_compatible, incompatibilities)`. -/
def analyzeLoop (db : ModificationDatabase) (sequence : String)
    (isotype : Option String) :
    List (SprinzlPosition × Nat) → Nat × Nat × List ModificationIncompatibility
  | [] => (0, 0, [])
  | (pos, seq_idx) :: rest =>
    match (sequence.toList.get? seq_idx).bind RnaBase.from_dna_char with
    | none => analyzeLoop db sequence isotype rest
    | some observed =>
      let expectations := expectationsAt db isotype pos
      if expectations.isEmpty then analyzeLoop db sequence isotype rest
      else
        let c := checkExpectations pos observed expectations
        let r := analyzeLoop db sequence isotype rest
        (r.1 + 1, r.2.1 + (if c.1 then 1 else 0), c.2 ++ r.2.2)

/-- `map_sequence_to_sprinzl`: use the structure string as alignment when
non-empty, else the positional 1:1 fallback over the raw sequence. -/
def map_sequence_to_sprinzl (hit : TRNAHit) : List (SprinzlPosition × Nat) :=
  if hit.«structure».isEmpty then
    (List.range hit.sequence.length).filterMap
      (fun i => (get_sprinzl i).map (fun s => (s, i)))
  else
    map_alignment hit.«structure»

/-- `analyze_compatibility`: per-hit compatibility analysis; the `f64` score
is embedded as `ℚ`. -/
def analyze_compatibility (hit : TRNAHit) (mod_db : ModificationDatabase) :
    ModCompatibilityResult :=
  let sprinzl_alignment := map_sequence_to_sprinzl hit
  let r := analyzeLoop mod_db hit.sequence hit.isotype sprinzl_alignment
  let positions_checked := r.1
  let positions_compatible := r.2.1
  let incompatibilities := r.2.2
  let compatibility_score : ℚ :=
    if positions_checked > 0 then
      (positions_compatible : ℚ) / (positions_checked : ℚ)
    else 1
  let has_significant := incompatibilities.any
    (fun i => i.severity = Severity.Critical || i.severity = Severity.Major)
  let is_odd := decide (compatibility_score < 1) && has_significant
  { hit := hit, sprinzl_alignment, incompatibilities, is_odd, compatibility_score }

/-! ## Concrete test inputs used by witnesses and counterexamples -/

/-- A hit whose structure string has its only residue at column 76, the
column of Sprinzl position `55`; the single sequence base is `A`,
contradicting the universal pseudouridine expectation there. -/
def hitA55 : TRNAHit :=
  { id := "h55", seq_name := "chr1", start := 0, endPos := 0, strand := .Plus,
    score := 0, isotype := none, anticodon := none, sequence := "A",
    «structure» := String.mk (List.replicate 76 '-' ++ ['x']) }

/-- A hit whose structure string has its only residue at column 36, the
column of Sprinzl position `34`; the single sequence base is `G`, which
contradicts the inosine alternative but satisfies the queuosine one. -/
def hitG34 : TRNAHit :=
  { id := "h34", seq_name := "chr1", start := 0, endPos := 0, strand := .Plus,
    score := 0, isotype := none, anticodon := none, sequence := "G",
    «structure» := String.mk (List.replicate 36 '-' ++ ['x']) }

/-- A hit with an empty sequence and no structure annotation: its mapping is
empty, so nothing is checked. -/
def hitEmpty : TRNAHit :=
  { id := "h0", seq_name := "chr1", start := 0, endPos := 0, strand := .Plus,
    score := 0, isotype := none, anticodon := none, sequence := "",
    «structure» := "" }

/-- The three-entry MODOMICS catalog from the repository's own
`from_modomics_json` test: dihydrouridine `D`, pseudouridine under the
MODOMICS short name `Y`, and inosine `I`. -/
def modomicsTestEntries : List ModomicsEntry :=
  [ { id := 14, name := "dihydrouridine", short_name := "D",
      new_abbrev := some "D", reference_moiety := ["U"],
      formula := none, mass_avg := none, smile := none },
    { id := 118, name := "pseudouridine", short_name := "Y",
      new_abbrev := some "P", reference_moiety := ["U"],
      formula := none, mass_avg := none, smile := none },
    { id := 113, name := "inosine", short_name := "I",
      new_abbrev := some "I", reference_moiety := ["A"],
      formula := none, mass_avg := none, smile := none } ]

/-- The database built from `modomicsTestEntries` by the MODOMICS
construction path. -/
def modomicsTestDb : ModificationDatabase :=
  dbFromModomicsMods (parse_modomics_entries modomicsTestEntries)

/-- The MODOMICS entry with an unrecognized reference moiety from the
repository's own `convert_entry_filters_invalid` test. -/
def unknownMoietyEntry : ModomicsEntry :=
  { id := 999, name := "unknown", short_name := "X",
    new_abbrev := none, reference_moiety := ["X"],
    formula := none, mass_avg := none, smile := none }

/-! ## Claims -/

/-- C5: for the standard Sprinzl mapper, `get_sprinzl` and `get_cm_index`
form a bijection between the column indices `0..N-1` and the `N` canonical
position labels: `get_cm_index (get_sprinzl i) = i` for every in-range
column index `i`, and `get_sprinzl (get_cm_index label) = label` for every
canonical label. -/
theorem sprinzl_mapper_bijective :
    (∀ i < sprinzlPositions.length, (get_sprinzl i).bind get_cm_index = some i)
    ∧ (∀ s ∈ sprinzlPositions, (get_cm_index s).bind get_sprinzl = some s) := by
  decide

theorem sprinzl_mapper_bijective_witness :
    (get_sprinzl 0).bind get_cm_index = some 0 :=
  sprinzl_mapper_bijective.1 0 (by decide)

/-- C2 counterexample: in the built-in eukaryotic database,
`get_modification "Psi"` succeeds but `get_modification "Y"` returns `none`
(the alias table maps `"Psi"` to `"Y"`, while the built-in modification map
is keyed by `"Psi"`), so the claim that both return `Some` fails. -/
theorem builtin_psi_alias_counterexample :
    (eukaryotic.get_modification "Psi").isSome = true
    ∧ eukaryotic.get_modification "Y" = none := by
  decide

/-- C2 (amended): `get_modification "Psi"` returns `Some` in the built-in
eukaryotic database while `get_modification "Y"` returns `none` there; in a
database built from a MODOMICS catalog that stores pseudouridine under the
short name `"Y"`, both `get_modification "Psi"` and `get_modification "Y"`
return `Some` and resolve to the same underlying `Modification` content. -/
theorem psi_alias_resolution :
    (eukaryotic.get_modification "Psi").isSome = true
    ∧ eukaryotic.get_modification "Y" = none
    ∧ (modomicsTestDb.get_modification "Psi").isSome = true
    ∧ modomicsTestDb.get_modification "Psi" = modomicsTestDb.get_modification "Y" := by
  decide

/-! ## Analyzer characterization lemmas -/

/-- Whether one alignment entry is counted toward the score denominator:
its base resolves and the position has at least one applicable expectation. -/
def isCheckedEntry (db : ModificationDatabase) (sequence : String)
    (isotype : Option String) (p : SprinzlPosition × Nat) : Bool :=
  ((sequence.toList.get? p.2).bind RnaBase.from_dna_char).isSome &&
  !(expectationsAt db isotype p.1).isEmpty

/-- Whether one alignment entry is counted as compatible: it is checked and
some modification alternative of some applicable expectation is compatible
with the observed base. -/
def isCompatibleEntry (db : ModificationDatabase) (sequence : String)
    (isotype : Option String) (p : SprinzlPosition × Nat) : Bool :=
  match (sequence.toList.get? p.2).bind RnaBase.from_dna_char with
  | none => false
  | some observed =>
    !(expectationsAt db isotype p.1).isEmpty &&
    (expectationsAt db isotype p.1).any
      (fun e => e.modifications.any (fun m => m.is_compatible observed))

theorem checkMods_fst (pos : SprinzlPosition) (obs : RnaBase)
    (cons : ConservationLevel) (mods : List Modification) :
    (checkMods pos obs cons mods).1 = mods.any (fun m => m.is_compatible obs) := by
  induction mods with
  | nil => rfl
  | cons m rest ih =>
    by_cases h : m.is_compatible obs
    · simp [checkMods, h]
    · simp [checkMods, h, ih]

theorem checkExpectations_fst (pos : SprinzlPosition) (obs : RnaBase)
    (exps : List PositionModExpectation) :
    (checkExpectations pos obs exps).1 =
      exps.any (fun e => e.modifications.any (fun m => m.is_compatible obs)) := by
  induction exps with
  | nil => rfl
  | cons e rest ih =>
    by_cases h : (checkMods pos obs e.conservation e.modifications).1 = true
    · simp [checkExpectations, h, ← checkMods_fst pos obs e.conservation]
    · simp only [checkExpectations, List.any_cons]
      rw [if_neg h, ← checkMods_fst pos obs e.conservation]
      simp only [Bool.not_eq_true] at h
      simp [h, ih]

theorem analyzeLoop_cons_none {db : ModificationDatabase} {sequence : String}
    {isotype : Option String} {pos : SprinzlPosition} {idx : Nat}
    {rest : List (SprinzlPosition × Nat)}
    (hb : (sequence.toList.get? idx).bind RnaBase.from_dna_char = none) :
    analyzeLoop db sequence isotype ((pos, idx) :: rest) =
      analyzeLoop db sequence isotype rest := by
  simp only [analyzeLoop]
  rw [hb]

theorem analyzeLoop_cons_skip {db : ModificationDatabase} {sequence : String}
    {isotype : Option String} {pos : SprinzlPosition} {idx : Nat}
    {rest : List (SprinzlPosition × Nat)} {observed : RnaBase}
    (hb : (sequence.toList.get? idx).bind RnaBase.from_dna_char = some observed)
    (he : (expectationsAt db isotype pos).isEmpty = true) :
    analyzeLoop db sequence isotype ((pos, idx) :: rest) =
      analyzeLoop db sequence isotype rest := by
  simp only [analyzeLoop]
  rw [hb]
  simp [he]

theorem analyzeLoop_cons_check {db : ModificationDatabase} {sequence : String}
    {isotype : Option String} {pos : SprinzlPosition} {idx : Nat}
    {rest : List (SprinzlPosition × Nat)} {observed : RnaBase}
    (hb : (sequence.toList.get? idx).bind RnaBase.from_dna_char = some observed)
    (he : (expectationsAt db isotype pos).isEmpty = false) :
    analyzeLoop db sequence isotype ((pos, idx) :: rest) =
      ((analyzeLoop db sequence isotype rest).1 + 1,
       (analyzeLoop db sequence isotype rest).2.1 +
         (if (checkExpectations pos observed (expectationsAt db isotype pos)).1
          then 1 else 0),
       (checkExpectations pos observed (expectationsAt db isotype pos)).2 ++
         (analyzeLoop db sequence isotype rest).2.2) := by
  simp only [analyzeLoop]
  rw [hb]
  simp [he]

theorem isCheckedEntry_eq {db : ModificationDatabase} {sequence : String}
    {isotype : Option String} (pos : SprinzlPosition) (idx : Nat) :
    isCheckedEntry db sequence isotype (pos, idx) =
      (((sequence.toList.get? idx).bind RnaBase.from_dna_char).isSome &&
       !(expectationsAt db isotype pos).isEmpty) := rfl

theorem isCompatibleEntry_eq {db : ModificationDatabase} {sequence : String}
    {isotype : Option String} (pos : SprinzlPosition) (idx : Nat) :
    isCompatibleEntry db sequence isotype (pos, idx) =
      (match (sequence.toList.get? idx).bind RnaBase.from_dna_char with
       | none => false
       | some observed =>
         !(expectationsAt db isotype pos).isEmpty &&
         (expectationsAt db isotype pos).any
           (fun e => e.modifications.any (fun m => m.is_compatible observed))) := rfl

theorem analyzeLoop_checked (db : ModificationDatabase) (sequence : String)
    (isotype : Option String) (l : List (SprinzlPosition × Nat)) :
    (analyzeLoop db sequence isotype l).1 =
      l.countP (isCheckedEntry db sequence isotype) := by
  induction l with
  | nil => rfl
  | cons p rest ih =>
    obtain ⟨pos, idx⟩ := p
    rw [List.countP_cons, isCheckedEntry_eq]
    cases hb : (sequence.toList.get? idx).bind RnaBase.from_dna_char with
    | none => rw [analyzeLoop_cons_none hb]; simp [ih]
    | some observed =>
      cases he : (expectationsAt db isotype pos).isEmpty with
      | true => rw [analyzeLoop_cons_skip hb he]; simp [ih]
      | false =>
        rw [analyzeLoop_cons_check hb he]
        simp [ih]

theorem analyzeLoop_compatible (db : ModificationDatabase) (sequence : String)
    (isotype : Option String) (l : List (SprinzlPosition × Nat)) :
    (analyzeLoop db sequence isotype l).2.1 =
      l.countP (isCompatibleEntry db sequence isotype) := by
  induction l with
  | nil => rfl
  | cons p rest ih =>
    obtain ⟨pos, idx⟩ := p
    rw [List.countP_cons, isCompatibleEntry_eq]
    cases hb : (sequence.toList.get? idx).bind RnaBase.from_dna_char with
    | none => rw [analyzeLoop_cons_none hb]; simp [ih]
    | some observed =>
      cases he : (expectationsAt db isotype pos).isEmpty with
      | true => rw [analyzeLoop_cons_skip hb he]; simp [ih]
      | false =>
        rw [analyzeLoop_cons_check hb he, checkExpectations_fst]
        simp [ih]

theorem checkMods_mem (pos : SprinzlPosition) (obs : RnaBase)
    (cons : ConservationLevel) (mods : List Modification) :
    ∀ inc ∈ (checkMods pos obs cons mods).2,
      inc.position = pos ∧ inc.severity = severityFromConservation cons := by
  induction mods with
  | nil => intro inc h; simp [checkMods] at h
  | cons m rest ih =>
    intro inc h
    by_cases hc : m.is_compatible obs
    · simp [checkMods, hc] at h
    · simp only [checkMods, hc, Bool.false_eq_true, if_false, List.mem_cons] at h
      rcases h with h | h
      · subst h; exact ⟨rfl, rfl⟩
      · exact ih inc h

theorem checkExpectations_mem (pos : SprinzlPosition) (obs : RnaBase)
    (exps : List PositionModExpectation) :
    ∀ inc ∈ (checkExpectations pos obs exps).2,
      ∃ e ∈ exps, inc.position = pos ∧
        inc.severity = severityFromConservation e.conservation := by
  induction exps with
  | nil => intro inc h; simp [checkExpectations] at h
  | cons e rest ih =>
    intro inc h
    by_cases hc : (checkMods pos obs e.conservation e.modifications).1 = true
    · rw [checkExpectations, if_pos hc] at h
      exact ⟨e, List.mem_cons_self e rest, checkMods_mem pos obs e.conservation _ inc h⟩
    · rw [checkExpectations, if_neg hc] at h
      rcases List.mem_append.mp h with h1 | h1
      · exact ⟨e, List.mem_cons_self e rest, checkMods_mem pos obs e.conservation _ inc h1⟩
      · obtain ⟨e', he', hp⟩ := ih inc h1
        exact ⟨e', List.mem_cons_of_mem e he', hp⟩

theorem analyzeLoop_mem (db : ModificationDatabase) (sequence : String)
    (isotype : Option String) (l : List (SprinzlPosition × Nat)) :
    ∀ inc ∈ (analyzeLoop db sequence isotype l).2.2,
      ∃ e ∈ expectationsAt db isotype inc.position,
        inc.severity = severityFromConservation e.conservation := by
  induction l with
  | nil => intro inc h; simp [analyzeLoop] at h
  | cons p rest ih =>
    obtain ⟨pos, idx⟩ := p
    intro inc h
    cases hb : (sequence.toList.get? idx).bind RnaBase.from_dna_char with
    | none =>
      rw [analyzeLoop_cons_none hb] at h
      exact ih inc h
    | some observed =>
      cases he : (expectationsAt db isotype pos).isEmpty with
      | true =>
        rw [analyzeLoop_cons_skip hb he] at h
        exact ih inc h
      | false =>
        rw [analyzeLoop_cons_check hb he] at h
        rcases List.mem_append.mp h with h1 | h1
        · obtain ⟨e, he', hpos, hsev⟩ := checkExpectations_mem pos observed _ inc h1
          exact ⟨e, by rw [hpos]; exact he', hsev⟩
        · exact ih inc h1

/-- The result's `incompatibilities` field is the loop's accumulator. -/
theorem analyze_incompatibilities_eq (hit : TRNAHit) (db : ModificationDatabase) :
    (analyze_compatibility hit db).incompatibilities =
      (analyzeLoop db hit.sequence hit.isotype (map_sequence_to_sprinzl hit)).2.2 := rfl

/-- The result's score field, in terms of the loop counters. -/
theorem analyze_score_eq (hit : TRNAHit) (db : ModificationDatabase) :
    (analyze_compatibility hit db).compatibility_score =
      (if (analyzeLoop db hit.sequence hit.isotype (map_sequence_to_sprinzl hit)).1 > 0
       then ((analyzeLoop db hit.sequence hit.isotype (map_sequence_to_sprinzl hit)).2.1 : ℚ) /
            ((analyzeLoop db hit.sequence hit.isotype (map_sequence_to_sprinzl hit)).1 : ℚ)
       else 1) := rfl

/-- The odd verdict, in terms of the result's own score and findings. -/
theorem analyze_is_odd_eq (hit : TRNAHit) (db : ModificationDatabase) :
    (analyze_compatibility hit db).is_odd =
      (decide ((analyze_compatibility hit db).compatibility_score < 1) &&
       (analyze_compatibility hit db).incompatibilities.any
         (fun i => i.severity = Severity.Critical || i.severity = Severity.Major)) := rfl

/-- C3: `analyze_compatibility` returns `compatibility_score` equal to the
number of compatible checked positions divided by the number of checked
positions, exactly `1` when zero positions were checked, and a hit whose
mapped positions all have no applicable expectations gets score `1` and
`is_odd = false`. -/
theorem compatibility_score_formula (hit : TRNAHit) (db : ModificationDatabase) :
    ((analyze_compatibility hit db).compatibility_score =
       (if 0 < (map_sequence_to_sprinzl hit).countP (isCheckedEntry db hit.sequence hit.isotype)
        then ((map_sequence_to_sprinzl hit).countP (isCompatibleEntry db hit.sequence hit.isotype) : ℚ) /
             ((map_sequence_to_sprinzl hit).countP (isCheckedEntry db hit.sequence hit.isotype) : ℚ)
        else 1))
    ∧ ((map_sequence_to_sprinzl hit).countP (isCheckedEntry db hit.sequence hit.isotype) = 0 →
        (analyze_compatibility hit db).compatibility_score = 1)
    ∧ ((∀ p ∈ map_sequence_to_sprinzl hit, expectationsAt db hit.isotype p.1 = []) →
        (analyze_compatibility hit db).compatibility_score = 1 ∧
        (analyze_compatibility hit db).is_odd = false) := by
  have hmain : (analyze_compatibility hit db).compatibility_score =
      (if 0 < (map_sequence_to_sprinzl hit).countP (isCheckedEntry db hit.sequence hit.isotype)
       then ((map_sequence_to_sprinzl hit).countP (isCompatibleEntry db hit.sequence hit.isotype) : ℚ) /
            ((map_sequence_to_sprinzl hit).countP (isCheckedEntry db hit.sequence hit.isotype) : ℚ)
       else 1) := by
    rw [analyze_score_eq, analyzeLoop_checked, analyzeLoop_compatible]
  refine ⟨hmain, ?_, ?_⟩
  · intro h0
    rw [hmain, h0]
    simp
  · intro hall
    have hck : (map_sequence_to_sprinzl hit).countP
        (isCheckedEntry db hit.sequence hit.isotype) = 0 := by
      rw [List.countP_eq_zero]
      intro p hp
      obtain ⟨pos, idx⟩ := p
      rw [isCheckedEntry_eq]
      simp [hall (pos, idx) hp]
    have hscore : (analyze_compatibility hit db).compatibility_score = 1 := by
      rw [hmain, hck]; simp
    refine ⟨hscore, ?_⟩
    rw [analyze_is_odd_eq, hscore]
    simp

theorem compatibility_score_formula_witness :
    (analyze_compatibility hitEmpty eukaryotic).compatibility_score = 1 ∧
    (analyze_compatibility hitEmpty eukaryotic).is_odd = false :=
  (compatibility_score_formula hitEmpty eukaryotic).2.2 (by decide)

/-- C4: `is_odd` is `true` exactly when the score is below `1` and at least
one recorded incompatibility is `Critical` or `Major`; a hit whose recorded
incompatibilities are all `Minor` is never marked odd. -/
theorem odd_verdict_condition (hit : TRNAHit) (db : ModificationDatabase) :
    ((analyze_compatibility hit db).is_odd = true ↔
       ((analyze_compatibility hit db).compatibility_score < 1 ∧
        ∃ i ∈ (analyze_compatibility hit db).incompatibilities,
          (i.severity = Severity.Critical ∨ i.severity = Severity.Major)))
    ∧ ((∀ i ∈ (analyze_compatibility hit db).incompatibilities,
          i.severity = Severity.Minor) →
        (analyze_compatibility hit db).is_odd = false) := by
  constructor
  · rw [analyze_is_odd_eq]
    simp [List.any_eq_true]
  · intro h
    rw [analyze_is_odd_eq]
    have : (analyze_compatibility hit db).incompatibilities.any
        (fun i => i.severity = Severity.Critical || i.severity = Severity.Major) = false := by
      rw [List.any_eq_false]
      intro i hi
      rw [h i hi]
      simp
    rw [this]
    simp

theorem odd_verdict_condition_witness :
    (analyze_compatibility hitEmpty eukaryotic).is_odd = false :=
  (odd_verdict_condition hitEmpty eukaryotic).2 (by decide)

/-- C7: every recorded incompatibility's severity is derived from the
conservation level of an owning expectation applicable at its position, by
the fixed table Universal to Critical, DomainSpecific to Major,
IsotypeSpecific to Major, Rare to Minor. -/
theorem severity_determinism (hit : TRNAHit) (db : ModificationDatabase) :
    (∀ inc ∈ (analyze_compatibility hit db).incompatibilities,
       ∃ e ∈ expectationsAt db hit.isotype inc.position,
         inc.severity = severityFromConservation e.conservation)
    ∧ severityFromConservation .Universal = .Critical
    ∧ severityFromConservation .DomainSpecific = .Major
    ∧ severityFromConservation .IsotypeSpecific = .Major
    ∧ severityFromConservation .Rare = .Minor := by
  refine ⟨?_, rfl, rfl, rfl, rfl⟩
  intro inc hinc
  rw [analyze_incompatibilities_eq] at hinc
  exact analyzeLoop_mem db hit.sequence hit.isotype (map_sequence_to_sprinzl hit) inc hinc

theorem severity_determinism_witness :
    ∃ e ∈ expectationsAt eukaryotic hitA55.isotype
        (⟨"55", RnaBase.A, "Psi", Severity.Critical⟩ : ModificationIncompatibility).position,
      (⟨"55", RnaBase.A, "Psi", Severity.Critical⟩ : ModificationIncompatibility).severity =
        severityFromConservation e.conservation :=
  (severity_determinism hitA55 eukaryotic).1
    ⟨"55", RnaBase.A, "Psi", Severity.Critical⟩ (by decide)

/-- The analyzer loop fully evaluated on `hitG34` against the built-in
database: one checked position, one compatible position, and one recorded
Major incompatibility from the inosine alternative tried before the
successful queuosine alternative. -/
theorem hitG34_loop_eval :
    analyzeLoop eukaryotic hitG34.sequence hitG34.isotype
        (map_sequence_to_sprinzl hitG34) =
      (1, 1, [⟨"34", RnaBase.G, "I", Severity.Major⟩]) := by decide

/-- The score of `hitG34` against the built-in database is exactly `1`. -/
theorem hitG34_score_one :
    (analyze_compatibility hitG34 eukaryotic).compatibility_score = 1 := by
  rw [analyze_score_eq, hitG34_loop_eval]
  norm_num

/-- C10: a score of exactly `1` forces `is_odd = false` even when the
incompatibilities list is non-empty; concretely, `hitG34` (base `G` at
position 34, no isotype) records a Major incompatibility against inosine
before queuosine succeeds, yet scores `1` and is not odd. -/
theorem score_one_never_odd :
    (∀ (hit : TRNAHit) (db : ModificationDatabase),
       (analyze_compatibility hit db).compatibility_score = 1 →
       (analyze_compatibility hit db).is_odd = false)
    ∧ ((analyze_compatibility hitG34 eukaryotic).incompatibilities ≠ []
       ∧ (∃ i ∈ (analyze_compatibility hitG34 eukaryotic).incompatibilities,
            (i.severity = Severity.Critical ∨ i.severity = Severity.Major))
       ∧ (analyze_compatibility hitG34 eukaryotic).compatibility_score = 1
       ∧ (analyze_compatibility hitG34 eukaryotic).is_odd = false) := by
  have hincs : (analyze_compatibility hitG34 eukaryotic).incompatibilities =
      [⟨"34", RnaBase.G, "I", Severity.Major⟩] := by
    rw [analyze_incompatibilities_eq, hitG34_loop_eval]
  have hodd : (analyze_compatibility hitG34 eukaryotic).is_odd = false := by
    rw [analyze_is_odd_eq, hitG34_score_one]
    simp
  refine ⟨?_, ?_, ?_, hitG34_score_one, hodd⟩
  · intro hit db h
    rw [analyze_is_odd_eq, h]
    simp
  · rw [hincs]; simp
  · exact ⟨⟨"34", RnaBase.G, "I", Severity.Major⟩, by rw [hincs]; simp, by simp⟩

theorem score_one_never_odd_witness :
    (analyze_compatibility hitG34 eukaryotic).is_odd = false :=
  score_one_never_odd.1 hitG34 eukaryotic hitG34_score_one

/-! ## Alignment-mapping lemmas (claim C1) -/

theorem assocLookup_enumFrom (l : List String) (n i : Nat) :
    assocLookup (n + i) (l.enumFrom n) = l.get? i := by
  induction l generalizing n i with
  | nil => simp [assocLookup, List.enumFrom]
  | cons x xs ih =>
    cases i with
    | zero => simp [List.enumFrom, assocLookup]
    | succ j =>
      have hne : n + (j + 1) ≠ n := by omega
      simp only [List.enumFrom, assocLookup, if_neg hne]
      have h := ih (n + 1) j
      rw [show n + 1 + j = n + (j + 1) by omega] at h
      simpa using h

theorem get_sprinzl_eq_get? (i : Nat) : get_sprinzl i = sprinzlPositions.get? i := by
  have h := assocLookup_enumFrom sprinzlPositions 0 i
  rw [Nat.zero_add] at h
  exact h

theorem get_sprinzl_lt {i : Nat} (h : i < sprinzlPositions.length) :
    get_sprinzl i = some (sprinzlPositions.get ⟨i, h⟩) := by
  rw [get_sprinzl_eq_get?, List.get?_eq_get h]

theorem get_sprinzl_ge {i : Nat} (h : sprinzlPositions.length ≤ i) :
    get_sprinzl i = none := by
  rw [get_sprinzl_eq_get?]
  exact List.get?_eq_none.mpr h

theorem mapAlignmentGo_cons_gap {cmIdx seqPos : Nat} {c : Char}
    {rest : List Char} (hg : isGap c = true) :
    mapAlignmentGo cmIdx seqPos (c :: rest) = mapAlignmentGo (cmIdx + 1) seqPos rest := by
  simp [mapAlignmentGo, hg]

theorem mapAlignmentGo_cons_residue_hit {cmIdx seqPos : Nat} {c : Char}
    {rest : List Char} (hg : isGap c = false) (h : cmIdx < sprinzlPositions.length) :
    mapAlignmentGo cmIdx seqPos (c :: rest) =
      (sprinzlPositions.get ⟨cmIdx, h⟩, seqPos) ::
        mapAlignmentGo (cmIdx + 1) (seqPos + 1) rest := by
  simp [mapAlignmentGo, hg, get_sprinzl_lt h]

theorem mapAlignmentGo_cons_residue_miss {cmIdx seqPos : Nat} {c : Char}
    {rest : List Char} (hg : isGap c = false) (h : sprinzlPositions.length ≤ cmIdx) :
    mapAlignmentGo cmIdx seqPos (c :: rest) =
      mapAlignmentGo (cmIdx + 1) (seqPos + 1) rest := by
  simp [mapAlignmentGo, hg, get_sprinzl_ge h]

/-- The values recorded by the alignment loop are the consecutive sequence
indices of the residues that fall within the canonical table's columns. -/
theorem mapAlignmentGo_values (al : List Char) :
    ∀ cmIdx seqPos,
      (mapAlignmentGo cmIdx seqPos al).map Prod.snd =
        List.range' seqPos
          ((al.take (sprinzlPositions.length - cmIdx)).countP (fun c => !(isGap c))) := by
  induction al with
  | nil => intro cmIdx seqPos; simp [mapAlignmentGo]
  | cons c rest ih =>
    intro cmIdx seqPos
    cases hg : isGap c with
    | true =>
      rw [mapAlignmentGo_cons_gap hg, ih (cmIdx + 1) seqPos]
      rcases Nat.lt_or_ge cmIdx sprinzlPositions.length with hlt | hge
      · have hs : sprinzlPositions.length - cmIdx =
            (sprinzlPositions.length - (cmIdx + 1)) + 1 := by omega
        rw [hs, List.take_succ_cons, List.countP_cons]
        simp [hg]
      · have h1 : sprinzlPositions.length - cmIdx = 0 := by omega
        have h2 : sprinzlPositions.length - (cmIdx + 1) = 0 := by omega
        rw [h1, h2]
        simp
    | false =>
      rcases Nat.lt_or_ge cmIdx sprinzlPositions.length with hlt | hge
      · rw [mapAlignmentGo_cons_residue_hit hg hlt, List.map_cons,
          ih (cmIdx + 1) (seqPos + 1)]
        have hs : sprinzlPositions.length - cmIdx =
            (sprinzlPositions.length - (cmIdx + 1)) + 1 := by omega
        rw [hs, List.take_succ_cons, List.countP_cons]
        simp [hg, List.range'_succ]
      · rw [mapAlignmentGo_cons_residue_miss hg hge, ih (cmIdx + 1) (seqPos + 1)]
        have h1 : sprinzlPositions.length - cmIdx = 0 := by omega
        have h2 : sprinzlPositions.length - (cmIdx + 1) = 0 := by omega
        rw [h1, h2]
        simp

/-- The keys recorded by the alignment loop appear in table order, so they
form a sublist of the canonical label list from the current column on. -/
theorem mapAlignmentGo_keys_sublist (al : List Char) :
    ∀ cmIdx seqPos,
      ((mapAlignmentGo cmIdx seqPos al).map Prod.fst).Sublist
        (sprinzlPositions.drop cmIdx) := by
  induction al with
  | nil => intro _ _; simp [mapAlignmentGo]
  | cons c rest ih =>
    intro cmIdx seqPos
    have hdrop : (sprinzlPositions.drop (cmIdx + 1)).Sublist
        (sprinzlPositions.drop cmIdx) := by
      rw [← List.tail_drop]
      exact List.tail_sublist _
    cases hg : isGap c with
    | true =>
      rw [mapAlignmentGo_cons_gap hg]
      exact (ih (cmIdx + 1) seqPos).trans hdrop
    | false =>
      rcases Nat.lt_or_ge cmIdx sprinzlPositions.length with hlt | hge
      · rw [mapAlignmentGo_cons_residue_hit hg hlt, List.map_cons,
          List.drop_eq_get_cons hlt]
        exact List.Sublist.cons₂ _ (ih (cmIdx + 1) (seqPos + 1))
      · rw [mapAlignmentGo_cons_residue_miss hg hge]
        exact (ih (cmIdx + 1) (seqPos + 1)).trans hdrop

/-- C1 counterexample: the claim that `map_alignment`'s value set is exactly
`0..R-1` for `R` the total number of non-gap characters fails: an alignment
of 98 gaps followed by one residue has `R = 1`, yet its mapping is empty (the
residue's column lies beyond the canonical table), so `0` is not a value. -/
theorem map_alignment_range_counterexample :
    ((String.mk (List.replicate 98 '-' ++ ['A'])).toList.countP (fun c => !(isGap c)) = 1)
    ∧ map_alignment (String.mk (List.replicate 98 '-' ++ ['A'])) = [] := by
  decide

/-- C1 (amended): for every alignment string, `map_alignment` terminates
(it is a total function) and produces entries whose values are exactly
`0..R'-1`, where `R'` counts the non-gap characters among the first
`sprinzlPositions.length` (98) columns only — equal to the total non-gap
count `R` whenever the string is no longer than the table — and whose keys
are pairwise distinct, so no two Sprinzl-position keys map to the same
sequence index. -/
theorem map_alignment_range :
    ∀ alignment : String,
      ((map_alignment alignment).map Prod.snd =
        List.range
          ((alignment.toList.take sprinzlPositions.length).countP (fun c => !(isGap c))))
      ∧ ((map_alignment alignment).map Prod.fst).Nodup
      ∧ ((map_alignment alignment).map Prod.snd).Nodup := by
  intro alignment
  have hvals : (map_alignment alignment).map Prod.snd =
      List.range
        ((alignment.toList.take sprinzlPositions.length).countP (fun c => !(isGap c))) := by
    have h := mapAlignmentGo_values alignment.toList 0 0
    rw [Nat.sub_zero] at h
    rw [map_alignment, h, List.range_eq_range']
  refine ⟨hvals, ?_, ?_⟩
  · have hsub := mapAlignmentGo_keys_sublist alignment.toList 0 0
    rw [List.drop_zero] at hsub
    exact hsub.nodup sprinzlPositions_nodup
  · rw [hvals]
    exact List.nodup_range _

/-! ## Database-construction lemmas (claims C6, C8, C9) -/

theorem foldl_add_position_expectation_modifications
    (es : List PositionModExpectation) (db : ModificationDatabase) :
    (es.foldl (fun d e => d.add_position_expectation e) db).modifications =
      db.modifications := by
  induction es generalizing db with
  | nil => rfl
  | cons e rest ih => rw [List.foldl_cons]; exact ih _

theorem addExpectationsIfSome_modifications (db : ModificationDatabase)
    (m : Option Modification) (f : Modification → List PositionModExpectation) :
    (addExpectationsIfSome db m f).modifications = db.modifications := by
  cases m with
  | none => rfl
  | some x => exact foldl_add_position_expectation_modifications _ _

theorem load_eukaryotic_expectations_modifications (db : ModificationDatabase) :
    (db.load_eukaryotic_expectations).modifications = db.modifications := by
  simp only [ModificationDatabase.load_eukaryotic_expectations,
    addExpectationsIfSome_modifications]

theorem dbFromModomicsMods_modifications (mods : List (String × Modification)) :
    (dbFromModomicsMods mods).modifications = mods := by
  rw [dbFromModomicsMods, load_eukaryotic_expectations_modifications]
  rfl

/-- A modification produced by `convert_entry` always has its genomic
expectation (equal to its parent base) outside its incompatible set: the
incompatible set is built by filtering the parent base out. -/
theorem convert_entry_genomic {e : ModomicsEntry} {m : Modification}
    (h : convert_entry e = some m) :
    m.is_compatible m.genomic_expectation = true ∧
    m.genomic_expectation ∉ m.incompatible_bases := by
  unfold convert_entry at h
  cases hpb : parentBaseOf e with
  | none => rw [hpb] at h; exact absurd h (by simp)
  | some pb =>
    rw [hpb, Option.some.injEq] at h
    subst h
    constructor
    · simp [Modification.is_compatible, List.mem_filter]
    · simp [List.mem_filter]

theorem mem_parse_modomics_entries_aux (entries : List ModomicsEntry) :
    ∀ (acc : List (String × Modification)) (p : String × Modification),
      p ∈ entries.foldl (fun acc e =>
        match convert_entry e with
        | some m => insertAssoc acc m.short_name m
        | none => acc) acc →
      p ∈ acc ∨ ∃ e ∈ entries, convert_entry e = some p.2 := by
  induction entries with
  | nil => intro acc p hp; exact Or.inl hp
  | cons e rest ih =>
    intro acc p hp
    rw [List.foldl_cons] at hp
    rcases ih _ p hp with h | ⟨e', he', hc⟩
    · cases hc2 : convert_entry e with
      | none => rw [hc2] at h; exact Or.inl h
      | some m =>
        rw [hc2] at h
        rcases mem_insertAssoc h with h1 | h1
        · exact Or.inl h1
        · refine Or.inr ⟨e, List.mem_cons_self e rest, ?_⟩
          rw [h1]
          exact hc2
    · exact Or.inr ⟨e', List.mem_cons_of_mem e he', hc⟩

theorem mem_parse_modomics_entries {entries : List ModomicsEntry}
    {p : String × Modification} (hp : p ∈ parse_modomics_entries entries) :
    ∃ e ∈ entries, convert_entry e = some p.2 := by
  rcases mem_parse_modomics_entries_aux entries [] p hp with h | h
  · simp at h
  · exact h

theorem assocLookup_mem {α β : Type} [DecidableEq α] {l : List (α × β)}
    {k : α} {v : β} (h : assocLookup k l = some v) : (k, v) ∈ l := by
  induction l with
  | nil => simp [assocLookup] at h
  | cons p rest ih =>
    obtain ⟨k', v'⟩ := p
    rw [assocLookup] at h
    by_cases hk : k = k'
    · rw [if_pos hk] at h
      injection h with h'
      subst hk; subst h'
      exact List.mem_cons_self _ _
    · rw [if_neg hk] at h
      exact List.mem_cons_of_mem _ (ih h)

theorem get_mod_cloned_mem {db : ModificationDatabase} {name : String}
    {x : Modification} (h : db.get_mod_cloned name = some x) :
    ∃ k, (k, x) ∈ db.modifications := by
  unfold ModificationDatabase.get_mod_cloned at h
  cases h1 : assocLookup name db.modifications with
  | some m =>
    rw [h1] at h
    injection h with h'
    subst h'
    exact ⟨name, assocLookup_mem h1⟩
  | none =>
    rw [h1] at h
    cases h2 : assocLookup name db.aliases with
    | some target =>
      rw [h2] at h
      exact ⟨target, assocLookup_mem h⟩
    | none => rw [h2] at h; exact absurd h (by simp)

theorem get_mod_cloned_orElse_mem {db : ModificationDatabase} {a b : String}
    {x : Modification}
    (h : (db.get_mod_cloned a).orElse (fun _ => db.get_mod_cloned b) = some x) :
    ∃ k, (k, x) ∈ db.modifications := by
  cases hc : db.get_mod_cloned a with
  | some y =>
    rw [hc] at h
    simp [Option.orElse] at h
    exact h ▸ get_mod_cloned_mem hc
  | none =>
    rw [hc] at h
    simp [Option.orElse] at h
    exact get_mod_cloned_mem h

/-- All modifications referenced inside the position-expectation table of a
database satisfy `Q`. -/
abbrev ExpectationModsSatisfy (Q : Modification → Prop)
    (db : ModificationDatabase) : Prop :=
  ∀ p ∈ db.position_expectations, ∀ e ∈ p.2, ∀ x ∈ e.modifications, Q x

theorem mem_assocPush {α β : Type} [DecidableEq α] {l : List (α × List β)}
    {k : α} {v : β} {p : α × List β} (h : p ∈ assocPush l k v) :
    (∃ q ∈ l, p.2 = q.2 ∨ p.2 = q.2 ++ [v]) ∨ p = (k, [v]) := by
  unfold assocPush at h
  split at h
  · obtain ⟨q, hq, hpq⟩ := List.mem_map.mp h
    by_cases hk : q.1 = k
    · rw [if_pos hk] at hpq
      exact Or.inl ⟨q, hq, Or.inr (by rw [← hpq])⟩
    · rw [if_neg hk] at hpq
      exact Or.inl ⟨q, hq, Or.inl (by rw [← hpq])⟩
  · rcases List.mem_append.mp h with h1 | h1
    · exact Or.inl ⟨p, h1, Or.inl rfl⟩
    · exact Or.inr (by simpa using h1)

theorem expectationModsSatisfy_add {Q : Modification → Prop}
    {db : ModificationDatabase} {e : PositionModExpectation}
    (hdb : ExpectationModsSatisfy Q db) (he : ∀ x ∈ e.modifications, Q x) :
    ExpectationModsSatisfy Q (db.add_position_expectation e) := by
  intro p hp e' he' x hx
  rcases mem_assocPush hp with ⟨q, hq, hcase⟩ | hnew
  · rcases hcase with h2 | h2
    · exact hdb q hq e' (h2 ▸ he') x hx
    · rw [h2] at he'
      rcases List.mem_append.mp he' with h3 | h3
      · exact hdb q hq e' h3 x hx
      · have h4 : e' = e := by simpa using h3
        exact he x (h4 ▸ hx)
  · have h4 : p.2 = [e] := by rw [hnew]
    rw [h4] at he'
    have h5 : e' = e := by simpa using he'
    exact he x (h5 ▸ hx)

theorem expectationModsSatisfy_foldl {Q : Modification → Prop}
    {es : List PositionModExpectation} {db : ModificationDatabase}
    (hdb : ExpectationModsSatisfy Q db)
    (hes : ∀ e ∈ es, ∀ x ∈ e.modifications, Q x) :
    ExpectationModsSatisfy Q
      (es.foldl (fun d e => d.add_position_expectation e) db) := by
  induction es generalizing db with
  | nil => exact hdb
  | cons e rest ih =>
    rw [List.foldl_cons]
    exact ih (expectationModsSatisfy_add hdb
        (hes e (List.mem_cons_self e rest)))
      (fun e' he' => hes e' (List.mem_cons_of_mem e he'))

theorem expectationModsSatisfy_addIf {Q : Modification → Prop}
    {db : ModificationDatabase} {m : Option Modification}
    {f : Modification → List PositionModExpectation}
    (hdb : ExpectationModsSatisfy Q db)
    (hf : ∀ x, ∀ e ∈ f x, e.modifications = [x])
    (hm : ∀ x, m = some x → Q x) :
    ExpectationModsSatisfy Q (addExpectationsIfSome db m f) := by
  cases m with
  | none => exact hdb
  | some x =>
    refine expectationModsSatisfy_foldl hdb ?_
    intro e he y hy
    rw [hf x e he] at hy
    have h1 : y = x := by simpa using hy
    exact h1 ▸ hm x rfl

set_option maxHeartbeats 2000000 in
/-- Through the whole expectation-loading chain, every modification placed
inside an expectation is drawn (via `get_mod_cloned`) from the database's
modification map, so a property of all map values extends to the whole
expectation table. -/
theorem load_eukaryotic_expectations_ok {Q : Modification → Prop}
    {db : ModificationDatabase} (hdb : ExpectationModsSatisfy Q db)
    (hmods : ∀ p ∈ db.modifications, Q p.2) :
    ExpectationModsSatisfy Q (db.load_eukaryotic_expectations) := by
  have hmem : ∀ (d : ModificationDatabase), d.modifications = db.modifications →
      ∀ (name : String) (x : Modification), d.get_mod_cloned name = some x → Q x := by
    intro d hd name x hx
    obtain ⟨k, hk⟩ := get_mod_cloned_mem hx
    rw [hd] at hk
    exact hmods (k, x) hk
  unfold ModificationDatabase.load_eukaryotic_expectations
  refine expectationModsSatisfy_addIf
    (expectationModsSatisfy_addIf
      (expectationModsSatisfy_addIf
        (expectationModsSatisfy_addIf
          (expectationModsSatisfy_addIf
            (expectationModsSatisfy_addIf
              (expectationModsSatisfy_addIf
                (expectationModsSatisfy_addIf
                  (expectationModsSatisfy_addIf
                    (expectationModsSatisfy_addIf
                      (expectationModsSatisfy_addIf
                        (expectationModsSatisfy_addIf hdb ?_ ?_) ?_ ?_) ?_ ?_)
                      ?_ ?_) ?_ ?_) ?_ ?_) ?_ ?_) ?_ ?_) ?_ ?_) ?_ ?_) ?_ ?_) ?_ ?_
  case _ => intro x e he; simp at he; rcases he with h | h | h <;> subst h <;> rfl
  all_goals
    first
    | (intro x e he; simp at he; subst he; rfl)
    | (intro x hx
       exact hmem _ (by simp only [addExpectationsIfSome_modifications]) _ x hx)
    | (intro x hx
       obtain ⟨k, hk⟩ := get_mod_cloned_orElse_mem hx
       simp only [addExpectationsIfSome_modifications] at hk
       exact hmods (k, x) hk)

/-- C6: every modification of a database built by either construction path
(built-in eukaryotic or from an external MODOMICS catalog) — whether stored
in the modification map or referenced inside a position expectation — is
compatible with its own genomic expectation, i.e. the genomic expectation
never lies in the incompatible set. -/
theorem genomic_expectation_consistency :
    (∀ p ∈ eukaryotic.modifications,
       p.2.is_compatible p.2.genomic_expectation = true ∧
       p.2.genomic_expectation ∉ p.2.incompatible_bases)
    ∧ ExpectationModsSatisfy
        (fun m => m.is_compatible m.genomic_expectation = true ∧
          m.genomic_expectation ∉ m.incompatible_bases) eukaryotic
    ∧ (∀ (entries : List ModomicsEntry),
       (∀ p ∈ (dbFromModomicsMods (parse_modomics_entries entries)).modifications,
          p.2.is_compatible p.2.genomic_expectation = true ∧
          p.2.genomic_expectation ∉ p.2.incompatible_bases)
       ∧ ExpectationModsSatisfy
           (fun m => m.is_compatible m.genomic_expectation = true ∧
             m.genomic_expectation ∉ m.incompatible_bases)
           (dbFromModomicsMods (parse_modomics_entries entries))) := by
  have hconv : ∀ (entries : List ModomicsEntry),
      ∀ p ∈ (dbFromModomicsMods (parse_modomics_entries entries)).modifications,
        p.2.is_compatible p.2.genomic_expectation = true ∧
        p.2.genomic_expectation ∉ p.2.incompatible_bases := by
    intro entries p hp
    rw [dbFromModomicsMods_modifications] at hp
    obtain ⟨e, _, hc⟩ := mem_parse_modomics_entries hp
    exact convert_entry_genomic hc
  refine ⟨by decide, by decide, ?_⟩
  intro entries
  refine ⟨hconv entries, ?_⟩
  unfold dbFromModomicsMods
  refine load_eukaryotic_expectations_ok ?_ ?_
  · intro p hp
    simp [ModificationDatabase.setup_aliases] at hp
  · intro p hp
    have hp2 : p ∈ parse_modomics_entries entries := by
      simpa [ModificationDatabase.setup_aliases] using hp
    obtain ⟨e, _, hc⟩ := mem_parse_modomics_entries hp2
    exact convert_entry_genomic hc

/-- The pseudouridine modification as converted from the MODOMICS test
catalog entry with short name `Y`. -/
def psiFromModomics : Modification :=
  { name := "pseudouridine", short_name := "Y", code := .Unicode 'P',
    alt_codes := [.SingleChar 'Y'], parent_base := .U,
    genomic_expectation := .U, incompatible_bases := [.A, .C, .G],
    chebi_id := none, modomics_unicode := some 'P' }

theorem genomic_expectation_consistency_witness :
    psiFromModomics.is_compatible psiFromModomics.genomic_expectation = true ∧
    psiFromModomics.genomic_expectation ∉ psiFromModomics.incompatible_bases :=
  (genomic_expectation_consistency.2.2 modomicsTestEntries).1
    ("Y", psiFromModomics) (by decide)

/-- C8: a MODOMICS catalog entry whose reference-moiety list is empty or
whose first reference base is not one of `A`, `C`, `G`, `U` converts to
`none` and is silently dropped, and every modification of the resulting
database (construction is total, never an error at this stage) comes from an
entry that converted successfully. -/
theorem modomics_import_filtering :
    (∀ e : ModomicsEntry,
       (e.reference_moiety.head? = none ∨
        ∃ s, e.reference_moiety.head? = some s ∧
          s ≠ "A" ∧ s ≠ "C" ∧ s ≠ "G" ∧ s ≠ "U") →
       convert_entry e = none)
    ∧ (∀ (entries : List ModomicsEntry),
       ∀ p ∈ (dbFromModomicsMods (parse_modomics_entries entries)).modifications,
         ∃ e ∈ entries, convert_entry e = some p.2) := by
  constructor
  · intro e he
    have hpb : parentBaseOf e = none := by
      rcases he with h | ⟨s, hs, hA, hC, hG, hU⟩
      · simp [parentBaseOf, h]
      · simp [parentBaseOf, hs, hA, hC, hG, hU]
    unfold convert_entry
    rw [hpb]
  · intro entries p hp
    rw [dbFromModomicsMods_modifications] at hp
    exact mem_parse_modomics_entries hp

theorem modomics_import_filtering_witness :
    convert_entry unknownMoietyEntry = none :=
  modomics_import_filtering.1 unknownMoietyEntry
    (Or.inr ⟨"X", rfl, by decide, by decide, by decide, by decide⟩)

/-- C9: constructing a database from an external catalog fails with
`IoError` exactly when the backing resource cannot be read, with
`ParseError` exactly when the read succeeds but the document does not decode
against the expected schema, and a successful result is the fully built
database (all-or-nothing: an `Except` carries either the error or the whole
database, never a partial one). -/
theorem modomics_error_taxonomy (readFile : String → Except String String)
    (decode : String → Except String (List ModomicsEntry)) (path : String) :
    (∀ msg, from_modomics_file readFile decode path = .error (.IoError msg) ↔
       readFile path = .error msg)
    ∧ (∀ msg, from_modomics_file readFile decode path = .error (.ParseError msg) ↔
       ∃ content, readFile path = .ok content ∧ decode content = .error msg)
    ∧ (∀ db, from_modomics_file readFile decode path = .ok db →
       ∃ content entries, readFile path = .ok content ∧ decode content = .ok entries ∧
         db = dbFromModomicsMods (parse_modomics_entries entries)) := by
  cases hr : readFile path with
  | error e =>
    have hmain : from_modomics_file readFile decode path = .error (.IoError e) := by
      simp [from_modomics_file, parse_modomics_file, hr, Except.map]
    refine ⟨?_, ?_, ?_⟩
    · intro msg; rw [hmain]; simp
    · intro msg; rw [hmain]; simp
    · intro db h; rw [hmain] at h; simp at h
  | ok content =>
    cases hd : decode content with
    | error pe =>
      have hmain : from_modomics_file readFile decode path =
          .error (.ParseError pe) := by
        simp [from_modomics_file, parse_modomics_file, parse_modomics_json, hr, hd,
          Except.map]
      refine ⟨?_, ?_, ?_⟩
      · intro msg; rw [hmain]; simp
      · intro msg; rw [hmain]; simp [hd]
      · intro db h; rw [hmain] at h; simp at h
    | ok entries =>
      have hmain : from_modomics_file readFile decode path =
          .ok (dbFromModomicsMods (parse_modomics_entries entries)) := by
        simp [from_modomics_file, parse_modomics_file, parse_modomics_json, hr, hd,
          Except.map]
      refine ⟨?_, ?_, ?_⟩
      · intro msg; rw [hmain]; simp
      · intro msg; rw [hmain]; simp [hd]
      · intro db h
        rw [hmain] at h
        refine ⟨content, entries, rfl, hd, ?_⟩
        exact (Except.ok.inj h).symm

/-- A filesystem collaborator whose read always fails. -/
def failingRead : String → Except String String := fun _ => .error "unreadable"

/-- A decoder collaborator that always reports a schema error. -/
def rejectingDecode : String → Except String (List ModomicsEntry) :=
  fun _ => .error "bad document"

theorem modomics_error_taxonomy_witness :
    from_modomics_file failingRead rejectingDecode "catalog.json" =
      .error (.IoError "unreadable") :=
  ((modomics_error_taxonomy failingRead rejectingDecode "catalog.json").1
    "unreadable").mpr rfl

end Ornament
